import Mathlib

/-!
Shallow embedding of `src/painlessmesh/protocol.hpp` (painlessMesh message
protocol layer): the JSON wire-value model, the message variant classes with
their encode (`addTo`) and decode (`JsonObject` constructor) logic, the
routing classifier, the node-tree aggregation constructor and the time-sync
`reply` operations, together with proofs of the specification's testable
properties.
-/

namespace painlessmesh

/-- A JSON value as used by this protocol layer (the ArduinoJson wire value).
Arrays only ever hold `uint32` node ids in this protocol, so they are
modelled as `List Nat`. Numbers are modelled as unbounded `Int`; the
`uint32` truncation happens in the accessors, mirroring `as<uint32_t>()`. -/
inductive JVal where
  | jnum (n : Int)
  | jstr (s : String)
  | jbool (b : Bool)
  | jarr (ns : List Nat)
  | jobj (fields : List (String × JVal))

/-- A `JsonObject`: an ordered association list of fields, as in ArduinoJson. -/
abbrev JsonObject := List (String × JVal)

/-- Model of `jsonObj[key]` read access: the first field with the given key, if any. -/
def getField (o : JsonObject) (k : String) : Option JVal :=
  (List.find? (fun p => p.1 == k) o).map (fun p => p.2)

/-- Model of `jsonObj[key] = v` write access (ArduinoJson member assignment): replace
the value in place when the key exists, append the field otherwise. -/
def setField (o : JsonObject) (k : String) (v : JVal) : JsonObject :=
  match o with
  | [] => [(k, v)]
  | (k2, v2) :: rest =>
    if k2 = k then (k, v) :: rest else (k2, v2) :: setField rest k v

/-- Model of `jsonObj.containsKey(key)`. -/
def containsKey (o : JsonObject) (k : String) : Bool :=
  (getField o k).isSome

/-- Model of `as<int>()`: a number yields its value, anything else (including an
absent field, i.e. a null variant) yields 0. -/
def asInt : Option JVal → Int
  | some (JVal.jnum n) => n
  | _ => 0

/-- Model of `as<uint32_t>()`: a number is converted to `uint32` (reduced mod `2^32`),
anything else (including an absent field) yields 0. -/
def asUInt32 : Option JVal → Nat
  | some (JVal.jnum n) => (n % 4294967296).toNat
  | _ => 0

/-- Model of `as<TSTRING>()`: a string yields itself, an absent field yields the
empty string. -/
def asStr : Option JVal → String
  | some (JVal.jstr s) => s
  | _ => ""

/-- Model of `as<bool>()`: a boolean yields itself, a number is tested against zero,
anything else yields false. -/
def asBool : Option JVal → Bool
  | some (JVal.jbool b) => b
  | some (JVal.jnum n) => n != 0
  | _ => false

/-- Model of `as<JsonArray>()` followed by reading every element `as<uint32_t>()`,
as in the `knownNodes` decoding loop. -/
def asArr : Option JVal → List Nat
  | some (JVal.jarr ns) => List.map (fun n => n % 4294967296) ns
  | _ => []

/-- Nested read `jsonObj["k"]["k2"]` : look the inner key up when the outer
value is an object, behave as a null variant otherwise. -/
def objGet (v : Option JVal) (k : String) : Option JVal :=
  match v with
  | some (JVal.jobj fields) => getField fields k
  | _ => none

/-- Nested `containsKey`, `jsonObj["k"].containsKey(k2)`. -/
def objContains (v : Option JVal) (k : String) : Bool :=
  (objGet v k).isSome

namespace router

/-- Model of `router::Type` discriminants; the C++ enum value, kept as an `Int`
because `routing()` casts an arbitrary wire integer into this enum. -/
def ROUTING_ERROR : Int := -1

def NEIGHBOUR : Int := 0

def SINGLE : Int := 1

def BROADCAST : Int := 2

end router

namespace protocol

/-- Model of `protocol::Type` wire discriminants. -/
def TIME_DELAY : Int := 3

def TIME_SYNC : Int := 4

def NODE_SYNC_REQUEST : Int := 5

def NODE_SYNC_REPLY : Int := 6

def CONTROL : Int := 7

def BROADCAST : Int := 8

def SINGLE : Int := 9

/-- Model of `protocol::TimeType` phases. -/
def TIME_SYNC_ERROR : Int := -1

def TIME_SYNC_REQUEST : Int := 0

def TIME_REQUEST : Int := 1

def TIME_REPLY : Int := 2

/-- The `Single` package: point-to-point application payload. `from` and
`dest` are `uint32` node ids, modelled as `Nat` (theorems carry the
`< 2^32` bound where it matters). The `type` member is the constant
discriminant `SINGLE`; no code path reassigns it, so it is not a field. -/
structure Single where
  from_ : Nat
  dest : Nat
  msg : String
deriving DecidableEq

/-- Model of `Single::Single(JsonObject)`: read `dest`, `from`, `msg`; absent fields
decode to 0 / the empty string (ArduinoJson null-variant conversions). -/
def Single.fromJson (o : JsonObject) : Single :=
  { dest := asUInt32 (getField o "dest"),
    from_ := asUInt32 (getField o "from"),
    msg := asStr (getField o "msg") }

/-- Model of `Single::addTo`: write `type`, `dest`, `from`, `msg` into the target. -/
def Single.addTo (p : Single) (o : JsonObject) : JsonObject :=
  let o := setField o "type" (JVal.jnum SINGLE)
  let o := setField o "dest" (JVal.jnum p.dest)
  let o := setField o "from" (JVal.jnum p.from_)
  setField o "msg" (JVal.jstr p.msg)

/-- The `Broadcast` package: structurally identical to `Single`, distinct
discriminant. -/
structure Broadcast where
  from_ : Nat
  dest : Nat
  msg : String
deriving DecidableEq

/-- Model of `Broadcast(JsonObject)` is the inherited `Single::Single(JsonObject)`. -/
def Broadcast.fromJson (o : JsonObject) : Broadcast :=
  { dest := asUInt32 (getField o "dest"),
    from_ := asUInt32 (getField o "from"),
    msg := asStr (getField o "msg") }

/-- Model of `Broadcast::addTo`: delegate to `Single::addTo` (which writes the base
discriminant `SINGLE`, since the base member is used there), then overwrite
`type` with `BROADCAST`. -/
def Broadcast.addTo (p : Broadcast) (o : JsonObject) : JsonObject :=
  setField (Single.addTo ⟨p.from_, p.dest, p.msg⟩ o) "type" (JVal.jnum BROADCAST)

/-- Model of `NodeTree`: one node plus the flat list of node ids reachable through
it. Defaults are the C++ member initialisers. -/
structure NodeTree where
  nodeId : Nat := 0
  root : Bool := false
  containsRoot : Bool := false
  knownNodes : List Nat := []
deriving DecidableEq

/-- Model of `NodeTree::NodeTree(JsonObject)`: `root`/`containsRoot` only when
present (else the false default); `nodeId` from the `nodeId` field when
present, else from the `from` field; `knownNodes` from the array when
present (else empty). -/
def NodeTree.fromJson (o : JsonObject) : NodeTree :=
  { root := if containsKey o "root" then asBool (getField o "root") else false,
    containsRoot :=
      if containsKey o "containsRoot" then asBool (getField o "containsRoot")
      else false,
    nodeId :=
      if containsKey o "nodeId" then asUInt32 (getField o "nodeId")
      else asUInt32 (getField o "from"),
    knownNodes :=
      if containsKey o "knownNodes" then asArr (getField o "knownNodes")
      else [] }

/-- Model of `NodeTree::addTo`: always write `nodeId`; write `root`, `containsRoot`
and `knownNodes` only when true / non-empty. -/
def NodeTree.addTo (p : NodeTree) (o : JsonObject) : JsonObject :=
  let o := setField o "nodeId" (JVal.jnum p.nodeId)
  let o := if p.root then setField o "root" (JVal.jbool p.root) else o
  let o :=
    if p.containsRoot then setField o "containsRoot" (JVal.jbool p.containsRoot)
    else o
  if p.knownNodes.length > 0 then setField o "knownNodes" (JVal.jarr p.knownNodes)
  else o

/-- Model of `asList`: the node tree's own id followed by its known nodes. -/
def asList (nodeTree : NodeTree) : List Nat :=
  nodeTree.nodeId :: nodeTree.knownNodes

/-- Model of `NodeSyncRequest`: a `NodeTree` plus `from`/`dest`.  The `type` member
is the constant discriminant `NODE_SYNC_REQUEST`. -/
structure NodeSyncRequest extends NodeTree where
  from_ : Nat
  dest : Nat
deriving DecidableEq

/-- The aggregation constructor
`NodeSyncRequest(fromID, destID, subTree, iAmRoot)`: starting from the
default-initialised members (`knownNodes = []`, `containsRoot = false`),
loop over the subtrees appending `asList s` to `knownNodes` and latching
`containsRoot` whenever `s.root || s.containsRoot`; then set `from`,
`dest`, `nodeId = fromID` and `root = iAmRoot`. -/
def NodeSyncRequest.build (fromID destID : Nat) (subTree : List NodeTree)
    (iAmRoot : Bool) : NodeSyncRequest :=
  let acc := List.foldl
    (fun (acc : List Nat × Bool) s =>
      (acc.1 ++ asList s, acc.2 || (s.root || s.containsRoot)))
    ([], false) subTree
  { from_ := fromID, dest := destID, nodeId := fromID, root := iAmRoot,
    containsRoot := acc.2, knownNodes := acc.1 }

/-- Model of `NodeSyncRequest(JsonObject)`: the `NodeTree` decode plus `dest`/`from`. -/
def NodeSyncRequest.fromJson (o : JsonObject) : NodeSyncRequest :=
  { toNodeTree := NodeTree.fromJson o,
    dest := asUInt32 (getField o "dest"),
    from_ := asUInt32 (getField o "from") }

/-- Model of `NodeSyncRequest::addTo`: delegate to `NodeTree::addTo`, then write
`type`, `dest`, `from`. -/
def NodeSyncRequest.addTo (p : NodeSyncRequest) (o : JsonObject) : JsonObject :=
  let o := NodeTree.addTo p.toNodeTree o
  let o := setField o "type" (JVal.jnum NODE_SYNC_REQUEST)
  let o := setField o "dest" (JVal.jnum p.dest)
  setField o "from" (JVal.jnum p.from_)

/-- Model of `NodeSyncReply`: same fields as `NodeSyncRequest`, distinct
discriminant. -/
structure NodeSyncReply extends NodeSyncRequest
deriving DecidableEq

/-- Model of `NodeSyncReply(JsonObject)` is the inherited `NodeSyncRequest` decode. -/
def NodeSyncReply.fromJson (o : JsonObject) : NodeSyncReply :=
  { toNodeSyncRequest := NodeSyncRequest.fromJson o }

/-- Model of `NodeSyncReply::addTo`: delegate to `NodeSyncRequest::addTo` (which
writes the base discriminant), then overwrite `type` with
`NODE_SYNC_REPLY`. -/
def NodeSyncReply.addTo (p : NodeSyncReply) (o : JsonObject) : JsonObject :=
  setField (NodeSyncRequest.addTo p.toNodeSyncRequest o) "type"
    (JVal.jnum NODE_SYNC_REPLY)

/-- Model of `time_sync_msg_t`: the inner time-sync payload; defaults are the C++
member initialisers (`type = TIME_SYNC_ERROR`, timestamps zero). -/
structure time_sync_msg_t where
  type : Int := TIME_SYNC_ERROR
  t0 : Nat := 0
  t1 : Nat := 0
  t2 : Nat := 0
deriving DecidableEq

/-- Model of `TimeSync`: the clock-sync package.  The outer `type` member is the
constant discriminant `TIME_SYNC`. -/
structure TimeSync where
  dest : Nat
  from_ : Nat
  msg : time_sync_msg_t
deriving DecidableEq

/-- Model of `TimeSync(JsonObject)`: read `dest`, `from`, the inner `msg.type`
unconditionally (an absent field decodes as 0), and each timestamp only
when present (else the zero default). -/
def TimeSync.fromJson (o : JsonObject) : TimeSync :=
  let m := getField o "msg"
  { dest := asUInt32 (getField o "dest"),
    from_ := asUInt32 (getField o "from"),
    msg :=
      { type := asInt (objGet m "type"),
        t0 := if objContains m "t0" then asUInt32 (objGet m "t0") else 0,
        t1 := if objContains m "t1" then asUInt32 (objGet m "t1") else 0,
        t2 := if objContains m "t2" then asUInt32 (objGet m "t2") else 0 } }

/-- Model of `TimeSync::addTo`: write `type`, `dest`, `from`, then a nested `msg`
object holding the phase and the per-phase timestamps: `t0` when the phase
is at least 1, `t1`/`t2` when it is at least 2. -/
def TimeSync.addTo (p : TimeSync) (o : JsonObject) : JsonObject :=
  let o := setField o "type" (JVal.jnum TIME_SYNC)
  let o := setField o "dest" (JVal.jnum p.dest)
  let o := setField o "from" (JVal.jnum p.from_)
  let m : JsonObject := []
  let m := setField m "type" (JVal.jnum p.msg.type)
  let m := if p.msg.type ≥ 1 then setField m "t0" (JVal.jnum p.msg.t0) else m
  let m :=
    if p.msg.type ≥ 2 then
      setField (setField m "t1" (JVal.jnum p.msg.t1)) "t2" (JVal.jnum p.msg.t2)
    else m
  setField o "msg" (JVal.jobj m)

/-- Model of `TimeSync::reply(newT0)`: set `t0`, advance the phase by one, swap
`from` and `dest`. -/
def TimeSync.reply (p : TimeSync) (newT0 : Nat) : TimeSync :=
  { dest := p.from_, from_ := p.dest,
    msg := { p.msg with t0 := newT0, type := p.msg.type + 1 } }

/-- Model of `TimeSync::reply(newT1, newT2)`: set `t1` and `t2`, advance the phase
by one, swap `from` and `dest`. -/
def TimeSync.reply2 (p : TimeSync) (newT1 newT2 : Nat) : TimeSync :=
  { dest := p.from_, from_ := p.dest,
    msg := { p.msg with t1 := newT1, t2 := newT2, type := p.msg.type + 1 } }

/-- Model of `TimeDelay`: structurally identical to `TimeSync`, distinct
discriminant. -/
structure TimeDelay extends TimeSync
deriving DecidableEq

/-- Model of `TimeDelay(JsonObject)` is the inherited `TimeSync` decode. -/
def TimeDelay.fromJson (o : JsonObject) : TimeDelay :=
  { toTimeSync := TimeSync.fromJson o }

/-- Model of `TimeDelay::addTo`: delegate to `TimeSync::addTo` (which writes the
base discriminant), then overwrite `type` with `TIME_DELAY`. -/
def TimeDelay.addTo (p : TimeDelay) (o : JsonObject) : JsonObject :=
  setField (TimeSync.addTo p.toTimeSync o) "type" (JVal.jnum TIME_DELAY)

/-- The `Variant` envelope: the parsed wire object plus the
`DeserializationError` state (`error = false` means `Ok`).  `deserializeJson`
sets the error only when the input text is not well-formed JSON; field
presence is never inspected, so a `Variant` built over any successfully
parsed object carries `error = Ok`. -/
structure Variant where
  jsonObj : JsonObject
  error : Bool

/-- A `Variant` built from a well-formed JSON document (the
`Variant(std::string)` constructor on input that `deserializeJson`
accepts): the parsed object with `error = Ok`. -/
def Variant.ofObj (o : JsonObject) : Variant :=
  { jsonObj := o, error := false }

/-- Model of `Variant::type()`: the raw discriminant, 0 when absent. -/
def Variant.type (v : Variant) : Int :=
  asInt (getField v.jsonObj "type")

/-- Model of `Variant::routing()`: an explicit `routing` field is returned verbatim
(cast into `router::Type`); otherwise dispatch on the discriminant. -/
def Variant.routing (v : Variant) : Int :=
  if containsKey v.jsonObj "routing" then asInt (getField v.jsonObj "routing")
  else
    let t := v.type
    if t = SINGLE ∨ t = TIME_DELAY then router.SINGLE
    else if t = BROADCAST then router.BROADCAST
    else if t = NODE_SYNC_REQUEST ∨ t = NODE_SYNC_REPLY ∨ t = TIME_SYNC then
      router.NEIGHBOUR
    else router.ROUTING_ERROR

/-- Model of `Variant::dest()`: the `dest` field, 0 when absent. -/
def Variant.dest (v : Variant) : Nat :=
  if containsKey v.jsonObj "dest" then asUInt32 (getField v.jsonObj "dest")
  else 0

end protocol

end painlessmesh

namespace painlessmesh

/-! ### Association-list lemmas for `getField` / `setField` -/

theorem getField_nil (k : String) : getField ([] : JsonObject) k = none := rfl

theorem getField_cons (k2 : String) (v2 : JVal) (tl : JsonObject) (k : String) :
    getField ((k2, v2) :: tl) k = if k2 = k then some v2 else getField tl k := by
  unfold getField
  by_cases h : k2 = k
  · rw [List.find?_cons_of_pos _ (by simp [h])]
    simp [h]
  · rw [List.find?_cons_of_neg _ (by simp [h])]
    simp [h]

theorem getField_setField_same (o : JsonObject) (k : String) (v : JVal) :
    getField (setField o k v) k = some v := by
  induction o with
  | nil => simp [setField, getField_cons]
  | cons hd tl ih =>
    obtain ⟨k2, v2⟩ := hd
    by_cases h : k2 = k
    · simp [setField, h, getField_cons]
    · simp [setField, h, getField_cons, ih]

theorem getField_setField_other (o : JsonObject) (k k2 : String) (v : JVal)
    (hne : k ≠ k2) : getField (setField o k v) k2 = getField o k2 := by
  induction o with
  | nil => simp [setField, getField_cons, hne, getField_nil]
  | cons hd tl ih =>
    obtain ⟨a, b⟩ := hd
    by_cases h : a = k
    · subst h
      simp [setField, getField_cons, hne]
    · by_cases h2 : a = k2
      · subst h2
        simp [setField, h, getField_cons]
      · simp [setField, h, getField_cons, h2, ih]

theorem containsKey_setField_same (o : JsonObject) (k : String) (v : JVal) :
    containsKey (setField o k v) k = true := by
  simp [containsKey, getField_setField_same]

theorem containsKey_setField_other (o : JsonObject) (k k2 : String) (v : JVal)
    (hne : k ≠ k2) : containsKey (setField o k v) k2 = containsKey o k2 := by
  simp [containsKey, getField_setField_other o k k2 v hne]

theorem getField_setField (o : JsonObject) (k k2 : String) (v : JVal) :
    getField (setField o k v) k2 = if k = k2 then some v else getField o k2 := by
  by_cases h : k = k2
  · subst h
    simp [getField_setField_same]
  · simp [getField_setField_other o k k2 v h, h]

theorem containsKey_setField (o : JsonObject) (k k2 : String) (v : JVal) :
    containsKey (setField o k v) k2 = ((k == k2) || containsKey o k2) := by
  by_cases h : k = k2
  · subst h
    simp [containsKey_setField_same]
  · simp [containsKey_setField_other o k k2 v h, h]

theorem containsKey_nil (k : String) : containsKey ([] : JsonObject) k = false :=
  rfl

theorem map_mod_eq_self (l : List Nat) (h : ∀ n ∈ l, n < 4294967296) :
    List.map (fun n => n % 4294967296) l = l := by
  induction l with
  | nil => rfl
  | cons a tl ih =>
    have ha : a < 4294967296 := h a (by simp)
    simp only [List.map_cons, Nat.mod_eq_of_lt ha, List.cons.injEq, true_and]
    exact ih (fun n hn => h n (by simp [hn]))

/-! ### Field-level description of `NodeTree::addTo` -/

theorem nodeTree_addTo_getField (t : protocol.NodeTree) (o : JsonObject) :
    getField (protocol.NodeTree.addTo t o) "nodeId" = some (JVal.jnum t.nodeId) ∧
    getField (protocol.NodeTree.addTo t o) "root" =
      (if t.root then some (JVal.jbool true) else getField o "root") ∧
    getField (protocol.NodeTree.addTo t o) "containsRoot" =
      (if t.containsRoot then some (JVal.jbool true) else getField o "containsRoot") ∧
    getField (protocol.NodeTree.addTo t o) "knownNodes" =
      (if t.knownNodes.length > 0 then some (JVal.jarr t.knownNodes)
       else getField o "knownNodes") ∧
    (∀ k : String, k ≠ "nodeId" → k ≠ "root" → k ≠ "containsRoot" →
      k ≠ "knownNodes" →
      getField (protocol.NodeTree.addTo t o) k = getField o k) := by
  unfold protocol.NodeTree.addTo
  cases hr : t.root <;> cases hc : t.containsRoot <;>
    by_cases hk : t.knownNodes.length > 0 <;>
    simp [hk, getField_setField] <;>
    exact fun k h1 h2 h3 h4 => by
      simp [getField_setField, Ne.symm h1, Ne.symm h2, Ne.symm h3, Ne.symm h4]

/-! ### Aggregation loop lemmas -/

theorem aggregate_foldl_knownNodes (l : List protocol.NodeTree)
    (init : List Nat × Bool) :
    (List.foldl (fun (acc : List Nat × Bool) s =>
        (acc.1 ++ protocol.asList s, acc.2 || (s.root || s.containsRoot)))
      init l).1 = init.1 ++ List.flatten (List.map protocol.asList l) := by
  induction l generalizing init with
  | nil => simp
  | cons hd tl ih => simp [ih, List.append_assoc]

theorem aggregate_foldl_containsRoot (l : List protocol.NodeTree)
    (init : List Nat × Bool) :
    (List.foldl (fun (acc : List Nat × Bool) s =>
        (acc.1 ++ protocol.asList s, acc.2 || (s.root || s.containsRoot)))
      init l).2 = (init.2 || List.any l (fun s => s.root || s.containsRoot)) := by
  induction l generalizing init with
  | nil => simp
  | cons hd tl ih => simp [ih, Bool.or_assoc]

/-! ### Claim theorems -/

/-- Claim C3: encoding any specialization (Broadcast, NodeSyncReply,
TimeDelay) always produces a wire value whose `type` field holds the
specialization's own discriminant (8, 6, 3 respectively), never the base's,
even though each specialization's `addTo` delegates to the base `addTo`
first. -/
theorem claim_C3_discriminant_stability :
    (∀ (p : protocol.Broadcast) (o : JsonObject),
      getField (protocol.Broadcast.addTo p o) "type" =
        some (JVal.jnum protocol.BROADCAST)) ∧
    (∀ (p : protocol.NodeSyncReply) (o : JsonObject),
      getField (protocol.NodeSyncReply.addTo p o) "type" =
        some (JVal.jnum protocol.NODE_SYNC_REPLY)) ∧
    (∀ (p : protocol.TimeDelay) (o : JsonObject),
      getField (protocol.TimeDelay.addTo p o) "type" =
        some (JVal.jnum protocol.TIME_DELAY)) ∧
    protocol.BROADCAST = 8 ∧ protocol.NODE_SYNC_REPLY = 6 ∧
    protocol.TIME_DELAY = 3 ∧
    protocol.BROADCAST ≠ protocol.SINGLE ∧
    protocol.NODE_SYNC_REPLY ≠ protocol.NODE_SYNC_REQUEST ∧
    protocol.TIME_DELAY ≠ protocol.TIME_SYNC := by
  refine ⟨?_, ?_, ?_, rfl, rfl, rfl, by decide, by decide, by decide⟩ <;>
    intro p o <;>
    simp [protocol.Broadcast.addTo, protocol.NodeSyncReply.addTo,
      protocol.TimeDelay.addTo, getField_setField_same]

/-- Claim C9: when encoding a NodeTree (and hence a NodeSyncRequest or
NodeSyncReply) into a fresh wire object, the optional fields `root`,
`containsRoot` and `knownNodes` are present exactly when they are true /
non-empty: absence, not an explicit false or empty array, is the wire
convention. -/
theorem claim_C9_optional_field_omission :
    (∀ t : protocol.NodeTree,
      containsKey (protocol.NodeTree.addTo t []) "root" = t.root ∧
      containsKey (protocol.NodeTree.addTo t []) "containsRoot" = t.containsRoot ∧
      containsKey (protocol.NodeTree.addTo t []) "knownNodes" =
        !t.knownNodes.isEmpty) ∧
    (∀ p : protocol.NodeSyncRequest,
      containsKey (protocol.NodeSyncRequest.addTo p []) "root" = p.root ∧
      containsKey (protocol.NodeSyncRequest.addTo p []) "containsRoot" =
        p.containsRoot ∧
      containsKey (protocol.NodeSyncRequest.addTo p []) "knownNodes" =
        !p.knownNodes.isEmpty) ∧
    (∀ p : protocol.NodeSyncReply,
      containsKey (protocol.NodeSyncReply.addTo p []) "root" = p.root ∧
      containsKey (protocol.NodeSyncReply.addTo p []) "containsRoot" =
        p.containsRoot ∧
      containsKey (protocol.NodeSyncReply.addTo p []) "knownNodes" =
        !p.knownNodes.isEmpty) := by
  have key0 : ∀ t : protocol.NodeTree,
      containsKey (protocol.NodeTree.addTo t []) "root" = t.root ∧
      containsKey (protocol.NodeTree.addTo t []) "containsRoot" =
        t.containsRoot ∧
      containsKey (protocol.NodeTree.addTo t []) "knownNodes" =
        !t.knownNodes.isEmpty := by
    intro t
    obtain ⟨h1, h2, h3, h4, _⟩ := nodeTree_addTo_getField t ([] : JsonObject)
    refine ⟨?_, ?_, ?_⟩ <;> simp only [containsKey, h2, h3, h4, getField_nil]
    · cases t.root <;> simp
    · cases t.containsRoot <;> simp
    · cases t.knownNodes <;> simp
  have passR : ∀ (p : protocol.NodeSyncRequest) (k : String),
      k ≠ "type" → k ≠ "dest" → k ≠ "from" →
      getField (protocol.NodeSyncRequest.addTo p []) k =
        getField (protocol.NodeTree.addTo p.toNodeTree []) k := by
    intro p k hk1 hk2 hk3
    simp [protocol.NodeSyncRequest.addTo, getField_setField, Ne.symm hk1,
      Ne.symm hk2, Ne.symm hk3]
  have keyR : ∀ p : protocol.NodeSyncRequest,
      containsKey (protocol.NodeSyncRequest.addTo p []) "root" = p.root ∧
      containsKey (protocol.NodeSyncRequest.addTo p []) "containsRoot" =
        p.containsRoot ∧
      containsKey (protocol.NodeSyncRequest.addTo p []) "knownNodes" =
        !p.knownNodes.isEmpty := by
    intro p
    obtain ⟨h1, h2, h3⟩ := key0 p.toNodeTree
    refine ⟨?_, ?_, ?_⟩ <;>
      simp only [containsKey] at h1 h2 h3 ⊢ <;>
      rw [passR p _ (by decide) (by decide) (by decide)]
    exacts [h1, h2, h3]
  refine ⟨key0, keyR, ?_⟩
  · intro p
    obtain ⟨h1, h2, h3⟩ := keyR p.toNodeSyncRequest
    refine ⟨?_, ?_, ?_⟩ <;>
      simp only [protocol.NodeSyncReply.addTo, containsKey_setField] <;>
      simp [h1, h2, h3]

/-- Claim C10: when decoding a NodeTree from a wire value with no `nodeId`
field, the decoder silently takes the value of the `from` field as the
result's `nodeId` (not a failure, not the 0 default); when `nodeId` is
present it is used directly. -/
theorem claim_C10_nodeId_from_fallback (o : JsonObject) (n : Int) :
    (getField o "nodeId" = none → getField o "from" = some (JVal.jnum n) →
      0 ≤ n → n < 4294967296 →
      (protocol.NodeTree.fromJson o).nodeId = n.toNat) ∧
    (getField o "nodeId" = some (JVal.jnum n) → 0 ≤ n → n < 4294967296 →
      (protocol.NodeTree.fromJson o).nodeId = n.toNat) := by
  constructor
  · intro hno hfrom h0 hlt
    simp only [protocol.NodeTree.fromJson, containsKey, hno, hfrom,
      Option.isSome_none, Bool.false_eq_true, if_false, asUInt32]
    omega
  · intro hyes h0 hlt
    simp only [protocol.NodeTree.fromJson, containsKey, hyes,
      Option.isSome_some, if_true, asUInt32]
    omega

/-- Witness for claim C10 at the concrete wire object
`{"from": 42}` (no `nodeId`, falls back to `from`) and `{"nodeId": 7}`. -/
theorem claim_C10_witness :
    (protocol.NodeTree.fromJson [("from", JVal.jnum 42)]).nodeId = 42 ∧
    (protocol.NodeTree.fromJson [("nodeId", JVal.jnum 7)]).nodeId = 7 :=
  ⟨(claim_C10_nodeId_from_fallback [("from", JVal.jnum 42)] 42).1 rfl rfl
      (by decide) (by decide),
   (claim_C10_nodeId_from_fallback [("nodeId", JVal.jnum 7)] 7).2 rfl
      (by decide) (by decide)⟩

/-- Claim C7: time-sync phase advance.  From phase 0 with `from = A`,
`dest = B`, one `reply(t0)` yields phase 1 with `t0` set and `from`/`dest`
swapped to B/A; a further `reply(t1, t2)` yields phase 2 with all three
timestamps set and direction swapped back to A/B.  In general `reply(newT0)`
sets `t0`, increments the phase by one and swaps `from`/`dest`, and
`reply(newT1, newT2)` sets `t1`/`t2`, increments the phase by one and swaps
`from`/`dest`. -/
theorem claim_C7_timesync_phase_advance :
    (∀ (p : protocol.TimeSync) (t0 : Nat), p.msg.type = 0 →
      (p.reply t0).msg.type = 1 ∧ (p.reply t0).msg.t0 = t0 ∧
      (p.reply t0).from_ = p.dest ∧ (p.reply t0).dest = p.from_) ∧
    (∀ (p : protocol.TimeSync) (t0 t1 t2 : Nat), p.msg.type = 0 →
      ((p.reply t0).reply2 t1 t2).msg.type = 2 ∧
      ((p.reply t0).reply2 t1 t2).msg.t0 = t0 ∧
      ((p.reply t0).reply2 t1 t2).msg.t1 = t1 ∧
      ((p.reply t0).reply2 t1 t2).msg.t2 = t2 ∧
      ((p.reply t0).reply2 t1 t2).from_ = p.from_ ∧
      ((p.reply t0).reply2 t1 t2).dest = p.dest) ∧
    (∀ (p : protocol.TimeSync) (newT0 : Nat),
      (p.reply newT0).msg.t0 = newT0 ∧
      (p.reply newT0).msg.type = p.msg.type + 1 ∧
      (p.reply newT0).from_ = p.dest ∧ (p.reply newT0).dest = p.from_) ∧
    (∀ (p : protocol.TimeSync) (newT1 newT2 : Nat),
      (p.reply2 newT1 newT2).msg.t1 = newT1 ∧
      (p.reply2 newT1 newT2).msg.t2 = newT2 ∧
      (p.reply2 newT1 newT2).msg.type = p.msg.type + 1 ∧
      (p.reply2 newT1 newT2).from_ = p.dest ∧
      (p.reply2 newT1 newT2).dest = p.from_) := by
  refine ⟨?_, ?_, ?_, ?_⟩
  · intro p t0 h
    simp [protocol.TimeSync.reply, h]
  · intro p t0 t1 t2 h
    simp [protocol.TimeSync.reply, protocol.TimeSync.reply2, h]
  · intro p newT0
    simp [protocol.TimeSync.reply]
  · intro p newT1 newT2
    simp [protocol.TimeSync.reply2]

/-- Witness for claim C7: the full round at phase 0 with
`from = 1`, `dest = 2`, timestamps 10, 20, 30. -/
theorem claim_C7_witness :
    ((protocol.TimeSync.mk 2 1 { type := 0 }).reply 10).msg.type = 1 ∧
    (((protocol.TimeSync.mk 2 1 { type := 0 }).reply 10).reply2 20 30).msg.type
      = 2 ∧
    (((protocol.TimeSync.mk 2 1 { type := 0 }).reply 10).reply2 20 30).from_
      = 1 :=
  ⟨(claim_C7_timesync_phase_advance.1 (protocol.TimeSync.mk 2 1 { type := 0 })
      10 rfl).1,
   (claim_C7_timesync_phase_advance.2.1 (protocol.TimeSync.mk 2 1 { type := 0 })
      10 20 30 rfl).1,
   (claim_C7_timesync_phase_advance.2.1 (protocol.TimeSync.mk 2 1 { type := 0 })
      10 20 30 rfl).2.2.2.2.1⟩

/-- Claim C5: the `NodeSyncRequest` aggregation constructor flattens the
subtrees in order: the result's `knownNodes` is the concatenation of
`[S.nodeId] ++ S.knownNodes` over the subtrees in the given order, its
`nodeId` and `from` are the self id, its `dest` the destination, and its
`root` flag the given `iAmRoot`. -/
theorem claim_C5_aggregation_order (fromID destID : Nat)
    (subTree : List protocol.NodeTree) (iAmRoot : Bool) :
    (protocol.NodeSyncRequest.build fromID destID subTree iAmRoot).knownNodes =
      List.flatten (List.map (fun s => s.nodeId :: s.knownNodes) subTree) ∧
    (protocol.NodeSyncRequest.build fromID destID subTree iAmRoot).nodeId =
      fromID ∧
    (protocol.NodeSyncRequest.build fromID destID subTree iAmRoot).root =
      iAmRoot ∧
    (protocol.NodeSyncRequest.build fromID destID subTree iAmRoot).from_ =
      fromID ∧
    (protocol.NodeSyncRequest.build fromID destID subTree iAmRoot).dest =
      destID := by
  refine ⟨?_, rfl, rfl, rfl, rfl⟩
  show (List.foldl _ ([], false) subTree).1 = _
  rw [aggregate_foldl_knownNodes]
  simp only [List.nil_append]
  rfl

/-- Claim C6: `containsRoot` propagation through the aggregation
constructor: if any subtree has `root` or `containsRoot` set, the result has
`containsRoot = true`; if none do, it is false. -/
theorem claim_C6_containsRoot_propagation (fromID destID : Nat)
    (subTree : List protocol.NodeTree) (iAmRoot : Bool) :
    ((∃ s ∈ subTree, s.root = true ∨ s.containsRoot = true) →
      (protocol.NodeSyncRequest.build fromID destID subTree iAmRoot).containsRoot
        = true) ∧
    ((∀ s ∈ subTree, s.root = false ∧ s.containsRoot = false) →
      (protocol.NodeSyncRequest.build fromID destID subTree iAmRoot).containsRoot
        = false) := by
  have hcr :
      (protocol.NodeSyncRequest.build fromID destID subTree iAmRoot).containsRoot
        = List.any subTree (fun s => s.root || s.containsRoot) := by
    show (List.foldl _ ([], false) subTree).2 = _
    rw [aggregate_foldl_containsRoot]
    simp
  rw [hcr]
  constructor
  · rintro ⟨s, hs, h⟩
    rw [List.any_eq_true]
    exact ⟨s, hs, by rcases h with h | h <;> simp [h]⟩
  · intro h
    rw [List.any_eq_false]
    intro s hs
    simp [(h s hs).1, (h s hs).2]

/-- Witness for claim C6: one subtree with `containsRoot = true` propagates;
two subtrees with neither flag set do not. -/
theorem claim_C6_witness :
    (protocol.NodeSyncRequest.build 1 2
      [{ nodeId := 3, containsRoot := true }] false).containsRoot = true ∧
    (protocol.NodeSyncRequest.build 1 2
      [{ nodeId := 3 }, { nodeId := 4 }] false).containsRoot = false :=
  ⟨(claim_C6_containsRoot_propagation 1 2
      [{ nodeId := 3, containsRoot := true }] false).1
      ⟨{ nodeId := 3, containsRoot := true }, by simp, Or.inr rfl⟩,
   (claim_C6_containsRoot_propagation 1 2
      [{ nodeId := 3 }, { nodeId := 4 }] false).2 (by decide)⟩

/-- Claim C8: when encoding a TimeSync (or TimeDelay) message, the phase in
`msg.type` determines exactly which timestamp fields appear in the wire
object's inner `msg`: `t0` is present iff the phase is at least 1, and
`t1`/`t2` are present iff the phase is at least 2 (so phase 0 writes none
of them). -/
theorem claim_C8_phase_determines_timestamps (p : protocol.TimeSync)
    (o : JsonObject) :
    ∃ m : JsonObject,
      getField (protocol.TimeSync.addTo p o) "msg" = some (JVal.jobj m) ∧
      getField (protocol.TimeDelay.addTo ⟨p⟩ o) "msg" = some (JVal.jobj m) ∧
      (containsKey m "t0" = true ↔ p.msg.type ≥ 1) ∧
      (containsKey m "t1" = true ↔ p.msg.type ≥ 2) ∧
      (containsKey m "t2" = true ↔ p.msg.type ≥ 2) := by
  have hdelay : ∀ q : protocol.TimeSync,
      getField (protocol.TimeDelay.addTo ⟨q⟩ o) "msg" =
        getField (protocol.TimeSync.addTo q o) "msg" := by
    intro q
    simp [protocol.TimeDelay.addTo, getField_setField]
  by_cases h2 : p.msg.type ≥ 2
  · have h1 : p.msg.type ≥ 1 := by omega
    refine ⟨setField (setField (setField (setField [] "type"
        (JVal.jnum p.msg.type)) "t0" (JVal.jnum p.msg.t0)) "t1"
        (JVal.jnum p.msg.t1)) "t2" (JVal.jnum p.msg.t2), ?_, ?_, ?_, ?_, ?_⟩
    · simp [protocol.TimeSync.addTo, h1, h2, getField_setField_same]
    · rw [hdelay]
      simp [protocol.TimeSync.addTo, h1, h2, getField_setField_same]
    all_goals (simp only [containsKey_setField, containsKey_nil]; simp [h1, h2])
  · by_cases h1 : p.msg.type ≥ 1
    · refine ⟨setField (setField [] "type" (JVal.jnum p.msg.type)) "t0"
        (JVal.jnum p.msg.t0), ?_, ?_, ?_, ?_, ?_⟩
      · simp [protocol.TimeSync.addTo, h1, h2, getField_setField_same]
      · rw [hdelay]
        simp [protocol.TimeSync.addTo, h1, h2, getField_setField_same]
      all_goals
        (simp only [containsKey_setField, containsKey_nil]; simp [h1, h2])
    · refine ⟨setField [] "type" (JVal.jnum p.msg.type), ?_, ?_, ?_, ?_, ?_⟩
      · simp [protocol.TimeSync.addTo, h1, h2, getField_setField_same]
      · rw [hdelay]
        simp [protocol.TimeSync.addTo, h1, h2, getField_setField_same]
      all_goals
        (simp only [containsKey_setField, containsKey_nil]; simp [h1, h2])

/-- Claim C2 counterexample: `CONTROL = 7` is a defined discriminant
(`protocol::Type`), yet a document `{"type": 7}` with no explicit `routing`
field is classified `ROUTING_ERROR`, which is none of NEIGHBOUR, SINGLE,
BROADCAST — so `routing()` does not return one of those three for every
defined discriminant. -/
theorem claim_C2_counterexample :
    protocol.CONTROL = 7 ∧
    (protocol.Variant.ofObj [("type", JVal.jnum 7)]).routing =
      router.ROUTING_ERROR ∧
    router.ROUTING_ERROR ≠ router.NEIGHBOUR ∧
    router.ROUTING_ERROR ≠ router.SINGLE ∧
    router.ROUTING_ERROR ≠ router.BROADCAST := by
  refine ⟨rfl, ?_, by decide, by decide, by decide⟩
  simp [protocol.Variant.ofObj, protocol.Variant.routing, protocol.Variant.type,
    containsKey, getField_cons, asInt, protocol.SINGLE, protocol.TIME_DELAY,
    protocol.BROADCAST, protocol.NODE_SYNC_REQUEST, protocol.NODE_SYNC_REPLY,
    protocol.TIME_SYNC, router.ROUTING_ERROR, getField]

/-- Claim C2 (amended): an explicit integer `routing` field is returned
verbatim; otherwise `routing()` maps SINGLE/TIME_DELAY to SINGLE, BROADCAST
to BROADCAST, NODE_SYNC_REQUEST/NODE_SYNC_REPLY/TIME_SYNC to NEIGHBOUR and
every other discriminant to ROUTING_ERROR; consequently every defined
discriminant EXCEPT the deprecated CONTROL (7) yields one of NEIGHBOUR,
SINGLE, BROADCAST, while CONTROL (like any unknown discriminant) yields
ROUTING_ERROR. -/
theorem claim_C2_routing_amended :
    (∀ (o : JsonObject) (n : Int), getField o "routing" = some (JVal.jnum n) →
      (protocol.Variant.ofObj o).routing = n) ∧
    (∀ o : JsonObject, containsKey o "routing" = false →
      (((protocol.Variant.ofObj o).type = protocol.SINGLE ∨
          (protocol.Variant.ofObj o).type = protocol.TIME_DELAY) →
        (protocol.Variant.ofObj o).routing = router.SINGLE) ∧
      ((protocol.Variant.ofObj o).type = protocol.BROADCAST →
        (protocol.Variant.ofObj o).routing = router.BROADCAST) ∧
      (((protocol.Variant.ofObj o).type = protocol.NODE_SYNC_REQUEST ∨
          (protocol.Variant.ofObj o).type = protocol.NODE_SYNC_REPLY ∨
          (protocol.Variant.ofObj o).type = protocol.TIME_SYNC) →
        (protocol.Variant.ofObj o).routing = router.NEIGHBOUR) ∧
      (((protocol.Variant.ofObj o).type ≠ protocol.SINGLE ∧
          (protocol.Variant.ofObj o).type ≠ protocol.TIME_DELAY ∧
          (protocol.Variant.ofObj o).type ≠ protocol.BROADCAST ∧
          (protocol.Variant.ofObj o).type ≠ protocol.NODE_SYNC_REQUEST ∧
          (protocol.Variant.ofObj o).type ≠ protocol.NODE_SYNC_REPLY ∧
          (protocol.Variant.ofObj o).type ≠ protocol.TIME_SYNC) →
        (protocol.Variant.ofObj o).routing = router.ROUTING_ERROR) ∧
      (((protocol.Variant.ofObj o).type = 3 ∨
          (protocol.Variant.ofObj o).type = 4 ∨
          (protocol.Variant.ofObj o).type = 5 ∨
          (protocol.Variant.ofObj o).type = 6 ∨
          (protocol.Variant.ofObj o).type = 8 ∨
          (protocol.Variant.ofObj o).type = 9) →
        (protocol.Variant.ofObj o).routing = router.NEIGHBOUR ∨
        (protocol.Variant.ofObj o).routing = router.SINGLE ∨
        (protocol.Variant.ofObj o).routing = router.BROADCAST) ∧
      ((protocol.Variant.ofObj o).type = protocol.CONTROL →
        (protocol.Variant.ofObj o).routing = router.ROUTING_ERROR)) := by
  have hbody : ∀ o : JsonObject, containsKey o "routing" = false →
      (protocol.Variant.ofObj o).routing =
        (if (protocol.Variant.ofObj o).type = 9 ∨
            (protocol.Variant.ofObj o).type = 3 then 1
         else if (protocol.Variant.ofObj o).type = 8 then 2
         else if (protocol.Variant.ofObj o).type = 5 ∨
            (protocol.Variant.ofObj o).type = 6 ∨
            (protocol.Variant.ofObj o).type = 4 then 0
         else -1) := by
    intro o h
    simp only [protocol.Variant.routing, protocol.Variant.ofObj, h,
      Bool.false_eq_true, if_false, protocol.SINGLE, protocol.TIME_DELAY,
      protocol.BROADCAST, protocol.NODE_SYNC_REQUEST, protocol.NODE_SYNC_REPLY,
      protocol.TIME_SYNC, router.SINGLE, router.BROADCAST, router.NEIGHBOUR,
      router.ROUTING_ERROR]
  constructor
  · intro o n h
    simp [protocol.Variant.ofObj, protocol.Variant.routing, containsKey, h,
      asInt]
  · intro o hro
    rw [protocol.SINGLE, protocol.TIME_DELAY, protocol.BROADCAST,
      protocol.NODE_SYNC_REQUEST, protocol.NODE_SYNC_REPLY, protocol.TIME_SYNC,
      protocol.CONTROL, router.SINGLE, router.BROADCAST, router.NEIGHBOUR,
      router.ROUTING_ERROR, hbody o hro]
    refine ⟨?_, ?_, ?_, ?_, ?_, ?_⟩
    · rintro (h | h) <;> simp [h]
    · intro h
      simp [h]
    · rintro (h | h | h) <;> simp [h]
    · rintro ⟨h9, h3, h8, h5, h6, h4⟩
      simp [h9, h3, h8, h5, h6, h4]
    · rintro (h | h | h | h | h | h) <;> simp [h]
    · intro h
      simp [h]

/-- Witness for claim C2: an explicit routing override, one discriminant
from each routing class, an unknown discriminant, and CONTROL. -/
theorem claim_C2_witness :
    (protocol.Variant.ofObj
      [("routing", JVal.jnum 2), ("type", JVal.jnum 9)]).routing = 2 ∧
    (protocol.Variant.ofObj [("type", JVal.jnum 9)]).routing = router.SINGLE ∧
    (protocol.Variant.ofObj [("type", JVal.jnum 8)]).routing =
      router.BROADCAST ∧
    (protocol.Variant.ofObj [("type", JVal.jnum 4)]).routing =
      router.NEIGHBOUR ∧
    (protocol.Variant.ofObj [("type", JVal.jnum 11)]).routing =
      router.ROUTING_ERROR :=
  ⟨claim_C2_routing_amended.1
      [("routing", JVal.jnum 2), ("type", JVal.jnum 9)] 2 rfl,
   (claim_C2_routing_amended.2 [("type", JVal.jnum 9)] rfl).1 (Or.inl rfl),
   (claim_C2_routing_amended.2 [("type", JVal.jnum 8)] rfl).2.1 rfl,
   (claim_C2_routing_amended.2 [("type", JVal.jnum 4)] rfl).2.2.1
     (Or.inr (Or.inr rfl)),
   (claim_C2_routing_amended.2 [("type", JVal.jnum 11)] rfl).2.2.2.1
     ⟨by decide, by decide, by decide, by decide, by decide, by decide⟩⟩

/-- Claim C4 counterexample: decoding the document `{"type": 9}` does NOT
fail: the envelope's error state is `Ok` (`deserializeJson` only rejects
malformed JSON text, never missing fields) and the `Single` decode produces
exactly the zero-filled value `{from: 0, dest: 0, msg: ""}`.  Likewise a
TimeSync whose inner `msg` object lacks `type` decodes without error, to
phase 0. -/
theorem claim_C4_counterexample :
    (protocol.Variant.ofObj [("type", JVal.jnum 9)]).error = false ∧
    protocol.Single.fromJson [("type", JVal.jnum 9)] =
      { from_ := 0, dest := 0, msg := "" } ∧
    (protocol.TimeSync.fromJson
        [("type", JVal.jnum 4), ("dest", JVal.jnum 1), ("from", JVal.jnum 2),
         ("msg", JVal.jobj [("t0", JVal.jnum 5)])]).msg.type = 0 := by
  refine ⟨rfl, ?_, rfl⟩
  rfl

/-- Claim C4 (amended): decoding a syntactically well-formed document never
fails on missing fields.  The envelope's error state is `Ok` for every
parsed object; a missing `dest`/`from` decodes to 0 and a missing `msg`
to the empty string in `Single` (so `{"type":9}` yields a zero-filled
value), and a missing inner `msg.type` in TimeSync silently decodes to
phase 0 (`TIME_SYNC_REQUEST`), not to an error. -/
theorem claim_C4_no_structural_error (o : JsonObject) :
    (protocol.Variant.ofObj o).error = false ∧
    (getField o "dest" = none → (protocol.Single.fromJson o).dest = 0) ∧
    (getField o "from" = none → (protocol.Single.fromJson o).from_ = 0) ∧
    (getField o "msg" = none → (protocol.Single.fromJson o).msg = "") ∧
    (objGet (getField o "msg") "type" = none →
      (protocol.TimeSync.fromJson o).msg.type = 0) := by
  refine ⟨rfl, ?_, ?_, ?_, ?_⟩
  · intro h
    simp [protocol.Single.fromJson, h, asUInt32]
  · intro h
    simp [protocol.Single.fromJson, h, asUInt32]
  · intro h
    simp [protocol.Single.fromJson, h, asStr]
  · intro h
    simp [protocol.TimeSync.fromJson, h, asInt]

/-- Witness for claim C4 (amended) at the concrete document `{"type": 9}`:
every required field of `Single` is missing, and none of the decodes
fail. -/
theorem claim_C4_witness :
    (protocol.Variant.ofObj [("type", JVal.jnum 9)]).error = false ∧
    (protocol.Single.fromJson [("type", JVal.jnum 9)]).dest = 0 ∧
    (protocol.Single.fromJson [("type", JVal.jnum 9)]).from_ = 0 ∧
    (protocol.Single.fromJson [("type", JVal.jnum 9)]).msg = "" ∧
    (protocol.TimeSync.fromJson [("type", JVal.jnum 9)]).msg.type = 0 :=
  ⟨(claim_C4_no_structural_error [("type", JVal.jnum 9)]).1,
   (claim_C4_no_structural_error [("type", JVal.jnum 9)]).2.1 rfl,
   (claim_C4_no_structural_error [("type", JVal.jnum 9)]).2.2.1 rfl,
   (claim_C4_no_structural_error [("type", JVal.jnum 9)]).2.2.2.1 rfl,
   (claim_C4_no_structural_error [("type", JVal.jnum 9)]).2.2.2.2 rfl⟩

/-! ### Round-trip helper lemmas (one per variant) -/

theorem single_roundtrip (p : protocol.Single)
    (hf : p.from_ < 4294967296) (hd : p.dest < 4294967296) :
    protocol.Single.fromJson (protocol.Single.addTo p []) = p := by
  obtain ⟨f, d, m⟩ := p
  simp only at hf hd
  simp [protocol.Single.addTo, protocol.Single.fromJson, getField_setField,
    asUInt32, asStr, protocol.Single.mk.injEq]
  omega

theorem broadcast_roundtrip (p : protocol.Broadcast)
    (hf : p.from_ < 4294967296) (hd : p.dest < 4294967296) :
    protocol.Broadcast.fromJson (protocol.Broadcast.addTo p []) = p := by
  obtain ⟨f, d, m⟩ := p
  simp only at hf hd
  simp [protocol.Broadcast.addTo, protocol.Broadcast.fromJson,
    protocol.Single.addTo, getField_setField, asUInt32, asStr,
    protocol.Broadcast.mk.injEq]
  omega

theorem nodeSyncRequest_roundtrip (p : protocol.NodeSyncRequest)
    (hf : p.from_ < 4294967296) (hd : p.dest < 4294967296)
    (hn : p.nodeId < 4294967296) (hk : ∀ n ∈ p.knownNodes, n < 4294967296) :
    protocol.NodeSyncRequest.fromJson (protocol.NodeSyncRequest.addTo p []) =
      p := by
  obtain ⟨⟨n, r, c, ks⟩, f, d⟩ := p
  simp only at hf hd hn hk
  have hmap : List.map (fun x => x % 4294967296) ks = ks :=
    map_mod_eq_self ks hk
  by_cases hks : ks.length > 0
  · cases r <;> cases c <;>
      simp [protocol.NodeSyncRequest.addTo, protocol.NodeSyncRequest.fromJson,
        protocol.NodeTree.fromJson, protocol.NodeTree.addTo, hks, containsKey,
        getField_setField, getField_nil, asUInt32, asBool, asArr, hmap,
        protocol.NodeSyncRequest.mk.injEq, protocol.NodeTree.mk.injEq] <;>
      omega
  · have : ks = [] := by
      cases ks with
      | nil => rfl
      | cons a l => simp at hks
    subst this
    cases r <;> cases c <;>
      simp [protocol.NodeSyncRequest.addTo, protocol.NodeSyncRequest.fromJson,
        protocol.NodeTree.fromJson, protocol.NodeTree.addTo, containsKey,
        getField_setField, getField_nil, asUInt32, asBool, asArr,
        protocol.NodeSyncRequest.mk.injEq, protocol.NodeTree.mk.injEq] <;>
      omega

theorem nodeSyncRequest_fromJson_setField_type (o : JsonObject) (v : JVal) :
    protocol.NodeSyncRequest.fromJson (setField o "type" v) =
      protocol.NodeSyncRequest.fromJson o := by
  simp [protocol.NodeSyncRequest.fromJson, protocol.NodeTree.fromJson,
    containsKey, getField_setField]

theorem nodeSyncReply_roundtrip (p : protocol.NodeSyncReply)
    (hf : p.from_ < 4294967296) (hd : p.dest < 4294967296)
    (hn : p.nodeId < 4294967296) (hk : ∀ n ∈ p.knownNodes, n < 4294967296) :
    protocol.NodeSyncReply.fromJson (protocol.NodeSyncReply.addTo p []) =
      p := by
  obtain ⟨q⟩ := p
  show protocol.NodeSyncReply.mk
      (protocol.NodeSyncRequest.fromJson
        (setField (protocol.NodeSyncRequest.addTo q []) "type"
          (JVal.jnum protocol.NODE_SYNC_REPLY))) = protocol.NodeSyncReply.mk q
  rw [nodeSyncRequest_fromJson_setField_type,
    nodeSyncRequest_roundtrip q hf hd hn hk]

theorem timeSync_roundtrip (p : protocol.TimeSync)
    (hf : p.from_ < 4294967296) (hd : p.dest < 4294967296)
    (h0 : p.msg.t0 < 4294967296) (h1 : p.msg.t1 < 4294967296)
    (h2 : p.msg.t2 < 4294967296)
    (w1 : p.msg.type < 1 → p.msg.t0 = 0)
    (w2 : p.msg.type < 2 → p.msg.t1 = 0 ∧ p.msg.t2 = 0) :
    protocol.TimeSync.fromJson (protocol.TimeSync.addTo p []) = p := by
  obtain ⟨d, f, τ, t0, t1, t2⟩ := p
  simp only at hf hd h0 h1 h2 w1 w2
  by_cases g2 : τ ≥ 2
  · have g1 : τ ≥ 1 := by omega
    simp [protocol.TimeSync.addTo, protocol.TimeSync.fromJson, g1, g2,
      getField_setField, getField_nil, objGet, objContains, containsKey, asInt, asUInt32,
      protocol.TimeSync.mk.injEq, protocol.time_sync_msg_t.mk.injEq]
    omega
  · by_cases g1 : τ ≥ 1
    · obtain ⟨e1, e2⟩ := w2 (by omega)
      subst e1 e2
      simp [protocol.TimeSync.addTo, protocol.TimeSync.fromJson, g1, g2,
        getField_setField, getField_nil, objGet, objContains, containsKey, asInt, asUInt32,
        protocol.TimeSync.mk.injEq, protocol.time_sync_msg_t.mk.injEq]
      omega
    · have e0 := w1 (by omega)
      obtain ⟨e1, e2⟩ := w2 (by omega)
      subst e0 e1 e2
      simp [protocol.TimeSync.addTo, protocol.TimeSync.fromJson, g1, g2,
        getField_setField, getField_nil, objGet, objContains, containsKey, asInt, asUInt32,
        protocol.TimeSync.mk.injEq, protocol.time_sync_msg_t.mk.injEq]
      omega

theorem timeSync_fromJson_setField_type (o : JsonObject) (v : JVal) :
    protocol.TimeSync.fromJson (setField o "type" v) =
      protocol.TimeSync.fromJson o := by
  simp [protocol.TimeSync.fromJson, getField_setField, objGet, objContains]

theorem timeDelay_roundtrip (p : protocol.TimeDelay)
    (hf : p.from_ < 4294967296) (hd : p.dest < 4294967296)
    (h0 : p.msg.t0 < 4294967296) (h1 : p.msg.t1 < 4294967296)
    (h2 : p.msg.t2 < 4294967296)
    (w1 : p.msg.type < 1 → p.msg.t0 = 0)
    (w2 : p.msg.type < 2 → p.msg.t1 = 0 ∧ p.msg.t2 = 0) :
    protocol.TimeDelay.fromJson (protocol.TimeDelay.addTo p []) = p := by
  obtain ⟨q⟩ := p
  show protocol.TimeDelay.mk
      (protocol.TimeSync.fromJson
        (setField (protocol.TimeSync.addTo q []) "type"
          (JVal.jnum protocol.TIME_DELAY))) = protocol.TimeDelay.mk q
  rw [timeSync_fromJson_setField_type,
    timeSync_roundtrip q hf hd h0 h1 h2 w1 w2]

/-- Claim C1: for every concrete message variant value (Single, Broadcast,
NodeSyncRequest, NodeSyncReply, TimeSync, TimeDelay) whose numeric fields
fit in `uint32` and whose TimeSync timestamps respect the data model's
present-per-phase convention (`t0` zero below phase 1, `t1`/`t2` zero below
phase 2, i.e. absent optional timestamps), decoding the wire value produced
by encoding the value yields a structurally equal value — including empty
`knownNodes` lists and zero-length `msg` strings. -/
theorem claim_C1_encode_decode_roundtrip :
    (∀ p : protocol.Single, p.from_ < 4294967296 → p.dest < 4294967296 →
      protocol.Single.fromJson (protocol.Single.addTo p []) = p) ∧
    (∀ p : protocol.Broadcast, p.from_ < 4294967296 → p.dest < 4294967296 →
      protocol.Broadcast.fromJson (protocol.Broadcast.addTo p []) = p) ∧
    (∀ p : protocol.NodeSyncRequest,
      p.from_ < 4294967296 → p.dest < 4294967296 → p.nodeId < 4294967296 →
      (∀ n ∈ p.knownNodes, n < 4294967296) →
      protocol.NodeSyncRequest.fromJson (protocol.NodeSyncRequest.addTo p [])
        = p) ∧
    (∀ p : protocol.NodeSyncReply,
      p.from_ < 4294967296 → p.dest < 4294967296 → p.nodeId < 4294967296 →
      (∀ n ∈ p.knownNodes, n < 4294967296) →
      protocol.NodeSyncReply.fromJson (protocol.NodeSyncReply.addTo p [])
        = p) ∧
    (∀ p : protocol.TimeSync,
      p.from_ < 4294967296 → p.dest < 4294967296 → p.msg.t0 < 4294967296 →
      p.msg.t1 < 4294967296 → p.msg.t2 < 4294967296 →
      (p.msg.type < 1 → p.msg.t0 = 0) →
      (p.msg.type < 2 → p.msg.t1 = 0 ∧ p.msg.t2 = 0) →
      protocol.TimeSync.fromJson (protocol.TimeSync.addTo p []) = p) ∧
    (∀ p : protocol.TimeDelay,
      p.from_ < 4294967296 → p.dest < 4294967296 → p.msg.t0 < 4294967296 →
      p.msg.t1 < 4294967296 → p.msg.t2 < 4294967296 →
      (p.msg.type < 1 → p.msg.t0 = 0) →
      (p.msg.type < 2 → p.msg.t1 = 0 ∧ p.msg.t2 = 0) →
      protocol.TimeDelay.fromJson (protocol.TimeDelay.addTo p []) = p) :=
  ⟨fun p hf hd => single_roundtrip p hf hd,
   fun p hf hd => broadcast_roundtrip p hf hd,
   fun p hf hd hn hk => nodeSyncRequest_roundtrip p hf hd hn hk,
   fun p hf hd hn hk => nodeSyncReply_roundtrip p hf hd hn hk,
   fun p hf hd h0 h1 h2 w1 w2 => timeSync_roundtrip p hf hd h0 h1 h2 w1 w2,
   fun p hf hd h0 h1 h2 w1 w2 => timeDelay_roundtrip p hf hd h0 h1 h2 w1 w2⟩

/-- Witness for claim C1 at concrete corner values: a zero-length `msg`
string, an empty `knownNodes` list, a phase-0 TimeSync with absent (zero)
timestamps, and a phase-2 TimeDelay with all timestamps present. -/
theorem claim_C1_witness :
    protocol.Single.fromJson
      (protocol.Single.addTo ⟨1, 2, ""⟩ []) = ⟨1, 2, ""⟩ ∧
    protocol.Broadcast.fromJson
      (protocol.Broadcast.addTo ⟨3, 0, "hello"⟩ []) = ⟨3, 0, "hello"⟩ ∧
    protocol.NodeSyncRequest.fromJson
      (protocol.NodeSyncRequest.addTo ⟨⟨5, false, false, []⟩, 5, 6⟩ []) =
      ⟨⟨5, false, false, []⟩, 5, 6⟩ ∧
    protocol.NodeSyncReply.fromJson
      (protocol.NodeSyncReply.addTo ⟨⟨⟨7, true, true, [8, 9]⟩, 7, 8⟩⟩ []) =
      ⟨⟨⟨7, true, true, [8, 9]⟩, 7, 8⟩⟩ ∧
    protocol.TimeSync.fromJson
      (protocol.TimeSync.addTo ⟨2, 1, ⟨0, 0, 0, 0⟩⟩ []) =
      ⟨2, 1, ⟨0, 0, 0, 0⟩⟩ ∧
    protocol.TimeDelay.fromJson
      (protocol.TimeDelay.addTo ⟨⟨2, 1, ⟨2, 10, 20, 30⟩⟩⟩ []) =
      ⟨⟨2, 1, ⟨2, 10, 20, 30⟩⟩⟩ :=
  ⟨claim_C1_encode_decode_roundtrip.1 ⟨1, 2, ""⟩ (by decide) (by decide),
   claim_C1_encode_decode_roundtrip.2.1 ⟨3, 0, "hello"⟩ (by decide)
     (by decide),
   claim_C1_encode_decode_roundtrip.2.2.1 ⟨⟨5, false, false, []⟩, 5, 6⟩
     (by decide) (by decide) (by decide) (by decide),
   claim_C1_encode_decode_roundtrip.2.2.2.1 ⟨⟨⟨7, true, true, [8, 9]⟩, 7, 8⟩⟩
     (by decide) (by decide) (by decide) (by decide),
   claim_C1_encode_decode_roundtrip.2.2.2.2.1 ⟨2, 1, ⟨0, 0, 0, 0⟩⟩
     (by decide) (by decide) (by decide) (by decide) (by decide)
     (fun _ => rfl) (fun _ => ⟨rfl, rfl⟩),
   claim_C1_encode_decode_roundtrip.2.2.2.2.2 ⟨⟨2, 1, ⟨2, 10, 20, 30⟩⟩⟩
     (by decide) (by decide) (by decide) (by decide) (by decide)
     (fun h => absurd h (by decide)) (fun h => absurd h (by decide))⟩

end painlessmesh
